import Mathlib

/-!
Verification of the SMT-LIB2 encoder/dispatcher/decoder slice
(`libsmtutil/SMTLib2Interface.cpp`, `libsmtutil/SMTLibParser.cpp`).

The C++ classes are embedded shallowly: the session object becomes an
explicit `SMTState` record, each member function becomes a Lean function
threading that state, and every `smtAssert` (fail-fast contract check)
becomes an `Option` failure (`none`).  Sort objects are handled in the
C++ code through `shared_ptr`s and a cache keyed by object address; the
embedding gives every sort node an explicit identity tag `id : Nat`
playing the role of the address.
-/

namespace SmtLib

/-- Sorts (`libsmtutil` sort hierarchy).  Each node carries an `id`
standing for the C++ object address, used by the per-instance sort-name
cache `m_sortNames` (keyed by `Sort const*` in the source). -/
inductive LSort where
  | int (id : Nat) (isSigned : Bool)
  | bool (id : Nat)
  | bitvector (id : Nat) (size : Nat)
  | array (id : Nat) (domain range : LSort)
  | tuple (id : Nat) (name : String) (members : List String) (components : List LSort)
  | function (id : Nat) (domain : List LSort) (codomain : LSort)
  | sortSort (id : Nat) (inner : LSort)

/-- The address/identity tag of a sort node. -/
def LSort.id : LSort → Nat
  | .int i _ => i
  | .bool i => i
  | .bitvector i _ => i
  | .array i _ _ => i
  | .tuple i _ _ _ => i
  | .function i _ _ => i
  | .sortSort i _ => i

/-- `Kind` enumeration of the sort hierarchy. -/
inductive SortKind where
  | int | bool | bitvector | array | tuple | function | sortSort
  deriving Repr, DecidableEq

/-- `Sort::kind` of a sort node. -/
def LSort.kind : LSort → SortKind
  | .int _ _ => .int
  | .bool _ => .bool
  | .bitvector _ _ => .bitvector
  | .array _ _ _ => .array
  | .tuple _ _ _ _ => .tuple
  | .function _ _ _ => .function
  | .sortSort _ _ => .sortSort

/-- `smtutil::Expression`: an operator/symbol name, ordered arguments and
an optional sort (`SortPointer`, possibly null → `none`). -/
inductive Expression where
  | mk (name : String) (arguments : List Expression) (sort : Option LSort)

def Expression.name : Expression → String
  | .mk n _ _ => n

def Expression.arguments : Expression → List Expression
  | .mk _ a _ => a

def Expression.sort : Expression → Option LSort
  | .mk _ _ s => s

/-- `SMTSolverChoice`: which backends are enabled (only the `z3` and
`cvc4` flags are consulted by `SMTLib2Interface::check`). -/
structure SMTSolverChoice where
  z3 : Bool
  cvc4 : Bool
  deriving Repr, DecidableEq

/-- `CheckResult` verdict enumeration. -/
inductive CheckResult where
  | SATISFIABLE | UNSATISFIABLE | UNKNOWN | CONFLICTING | ERROR
  deriving Repr, DecidableEq

/-- The mutable state of one `SMTLib2Interface` session. -/
structure SMTState where
  /-- `m_accumulatedOutput`: stack of text scopes. -/
  accumulatedOutput : List String
  /-- `m_variables`: declaration table, symbol name to declared sort. -/
  varTable : List (String × LSort)
  /-- `m_userSorts`: tuple-datatype registry, `(quoted name, declaration)`. -/
  userSorts : List (String × String)
  /-- `m_sortNames`: sort-name cache keyed by instance identity. -/
  sortNames : List (Nat × String)
  /-- `m_unhandledQueries` (from the `SolverInterface` base). -/
  unhandledQueries : List String
  /-- `m_enabledSolvers`. -/
  enabledSolvers : SMTSolverChoice
  /-- `m_queryTimeout` (from the `SolverInterface` base). -/
  queryTimeout : Option Nat

/-- `SMTLib2Interface::write`: append a newline-terminated line to the
top scope buffer; `smtAssert(!m_accumulatedOutput.empty())`. -/
def write (st : SMTState) (data : String) : Option SMTState :=
  match st.accumulatedOutput.getLast? with
  | none => none
  | some last =>
      some { st with accumulatedOutput := st.accumulatedOutput.dropLast ++ [last ++ data ++ "\n"] }

/-- `SMTLib2Interface::reset`: reinitialise to a single scope holding the
preamble (`produce-models`, optional `timeout`, `set-logic ALL`), clear
the declaration table, registry and cache.  The three `write` calls are
folded into one buffer value; each write appends `line ++ "\n"`. -/
def reset (st : SMTState) : SMTState :=
  let buf :=
    "(set-option :produce-models true)\n"
    ++ (match st.queryTimeout with
        | some t => "(set-option :timeout " ++ toString t ++ ")\n"
        | none => "")
    ++ "(set-logic ALL)\n"
  { st with
    accumulatedOutput := [buf]
    varTable := []
    userSorts := []
    sortNames := [] }

/-- The constructor `SMTLib2Interface::SMTLib2Interface`, which stores the
configuration and calls `reset()`. -/
def newInterface (choice : SMTSolverChoice) (timeout : Option Nat) : SMTState :=
  reset
    { accumulatedOutput := []
      varTable := []
      userSorts := []
      sortNames := []
      unhandledQueries := []
      enabledSolvers := choice
      queryTimeout := timeout }

/-- `SMTLib2Interface::push`: append a fresh empty scope. -/
def push (st : SMTState) : SMTState :=
  { st with accumulatedOutput := st.accumulatedOutput ++ [""] }

/-- `SMTLib2Interface::pop`: `smtAssert(!m_accumulatedOutput.empty())`
then remove the top scope. -/
def pop (st : SMTState) : Option SMTState :=
  if st.accumulatedOutput = [] then none
  else some { st with accumulatedOutput := st.accumulatedOutput.dropLast }

mutual

/-- `SMTLib2Interface::toSmtLibSort` (single-sort overload): look the
instance up in the `m_sortNames` cache, otherwise compute via
`sortToString` and cache the result. -/
def toSmtLibSort (st : SMTState) (s : LSort) : Option (String × SMTState) :=
  match (st.sortNames.find? (fun p => p.1 = s.id)) with
  | some p => some (p.2, st)
  | none =>
      match sortToString st s with
      | none => none
      | some (name, st1) =>
          some (name, { st1 with sortNames := (s.id, name) :: st1.sortNames })

/-- `SMTLib2Interface::sortToString`: render one sort; for a tuple sort
emit (once per quoted tuple name, deduplicated through `m_userSorts`) a
`declare-datatypes` line into the current scope.  The `default` branch of
the C++ switch is `smtAssert(false)`. -/
def sortToString (st : SMTState) (s : LSort) : Option (String × SMTState) :=
  match s with
  | .int _ _ => some ("Int", st)
  | .bool _ => some ("Bool", st)
  | .bitvector _ size => some ("(_ BitVec " ++ toString size ++ ")", st)
  | .array _ domain range =>
      match toSmtLibSort st domain with
      | none => none
      | some (ds, st1) =>
          match toSmtLibSort st1 range with
          | none => none
          | some (rs, st2) => some ("(Array " ++ ds ++ " " ++ rs ++ ")", st2)
  | .tuple _ name members components =>
      let tupleName := "|" ++ name ++ "|"
      if st.userSorts.any (fun entry => entry.1 = tupleName) then
        some (tupleName, st)
      else
        if members.length = components.length then
          match tupleFields st members components with
          | none => none
          | some (fields, st1) =>
              let decl := "(declare-datatypes ((" ++ tupleName ++ " 0)) ((("
                ++ tupleName ++ fields ++ "))))"
              let st2 := { st1 with userSorts := st1.userSorts ++ [(tupleName, decl)] }
              match write st2 decl with
              | none => none
              | some st3 => some (tupleName, st3)
        else none
  | .function _ _ _ => none
  | .sortSort _ _ => none

/-- The member loop of the tuple branch of `sortToString`: renders
`" (|member_i| <component_i text>)"` for each field, threading the cache
and registry state through the component renders. -/
def tupleFields (st : SMTState) (members : List String) (components : List LSort) :
    Option (String × SMTState) :=
  match members, components with
  | [], [] => some ("", st)
  | m :: ms, c :: cs =>
      match toSmtLibSort st c with
      | none => none
      | some (cstr, st1) =>
          match tupleFields st1 ms cs with
          | none => none
          | some (rest, st2) => some (" (|" ++ m ++ "| " ++ cstr ++ ")" ++ rest, st2)
  | _, _ => none

end

/-- The loop body of the vector overload of `toSmtLibSort`: appends
`sort_i ++ " "` for each element. -/
def sortListBody (st : SMTState) : List LSort → Option (String × SMTState)
  | [] => some ("", st)
  | s :: rest =>
      match toSmtLibSort st s with
      | none => none
      | some (str, st1) =>
          match sortListBody st1 rest with
          | none => none
          | some (tail, st2) => some (str ++ " " ++ tail, st2)

/-- `SMTLib2Interface::toSmtLibSort` (vector overload), used for function
domains: `"(" ++ sort_0 ++ " " ++ ... ++ ")"` with a trailing space per
element. -/
def toSmtLibSortList (st : SMTState) (sorts : List LSort) : Option (String × SMTState) :=
  match sortListBody st sorts with
  | none => none
  | some (body, st1) => some ("(" ++ body ++ ")", st1)

/-- `SMTLib2Interface::declareFunction`: `smtAssert` that the sort is a
function sort; if the name is not yet in the declaration table, render
domain and codomain, record the name, and emit the `declare-fun` line. -/
def declareFunction (st : SMTState) (name : String) (sort : LSort) : Option SMTState :=
  match sort with
  | .function _ domain codomain =>
      if st.varTable.any (fun p => p.1 = name) then some st
      else
        match toSmtLibSortList st domain with
        | none => none
        | some (domainStr, st1) =>
            match toSmtLibSort st1 codomain with
            | none => none
            | some (codomainStr, st2) =>
                let st3 := { st2 with varTable := (name, sort) :: st2.varTable }
                write st3 ("(declare-fun |" ++ name ++ "| " ++ domainStr ++ " " ++ codomainStr ++ ")")
  | _ => none

/-- `SMTLib2Interface::declareVariable`: function sorts delegate to
`declareFunction`; otherwise, if the name is not yet declared, record it
and emit `(declare-fun |name| () <sort>)`. -/
def declareVariable (st : SMTState) (name : String) (sort : LSort) : Option SMTState :=
  if sort.kind = .function then declareFunction st name sort
  else if st.varTable.any (fun p => p.1 = name) then some st
  else
    let st1 := { st with varTable := (name, sort) :: st.varTable }
    match toSmtLibSort st1 sort with
    | none => none
    | some (sortStr, st2) =>
        write st2 ("(declare-fun |" ++ name ++ "| () " ++ sortStr ++ ")")

/-- `std::stoul` restricted to the plain decimal forms the source feeds
it (width literals and tuple indices): reads the leading run of decimal
digits, failing (the C++ call would throw) if there is none. -/
def stoul (s : String) : Option Nat :=
  let ds := s.data.takeWhile Char.isDigit
  if ds.isEmpty then none
  else some (ds.foldl (fun n c => 10 * n + (c.toNat - Char.toNat '0')) 0)

mutual

/-- `SMTLib2Interface::toSExpr`: render an expression.  Leaves render as
their name; applications are parenthesised with four special-cased
operator names (`int2bv`, `bv2int`, `const_array`, `tuple_get`,
`tuple_constructor`), tested in that order in the source and realised
here as match clauses in the same order.  State is threaded because
`const_array` renders a sort via `toSmtLibSort`, which may emit a tuple
datatype declaration.  A `none` clause is an `smtAssert` failure or
undefined behaviour (an out-of-range `arguments` access or a null
dynamic cast dereference) of the corresponding source path. -/
def toSExpr (st : SMTState) (e : Expression) : Option (String × SMTState) :=
  match e with
  | .mk name [] _ => some (name, st)
  | .mk "int2bv" (a0 :: a1 :: _) _ => do
      let size ← stoul a1.name
      let (arg, st1) ← toSExpr st a0
      let int2bv := "(_ int2bv " ++ toString size ++ ")"
      some ("(" ++ "ite " ++ "(>= " ++ arg ++ " 0) "
        ++ "(" ++ int2bv ++ " " ++ arg ++ ") "
        ++ "(bvneg (" ++ int2bv ++ " (- " ++ arg ++ ")))" ++ ")", st1)
  | .mk "int2bv" _ _ => none
  | .mk "bv2int" (a0 :: _) sort =>
      match sort with
      | some (.int _ isSigned) => do
          let (arg, st1) ← toSExpr st a0
          let nat := "(bv2nat " ++ arg ++ ")"
          if !isSigned then some (nat, st1)
          else
            match a0.sort with
            | some (.bitvector _ size) =>
                -- `bvSort->size - 1` on a C++ unsigned, hence the wraparound at 0.
                let pos := toString (if size = 0 then 2 ^ 32 - 1 else size - 1)
                some ("(" ++ "ite " ++ "(= ((_ extract " ++ pos ++ " " ++ pos ++ ")"
                  ++ arg ++ ") #b0) " ++ nat ++ " "
                  ++ "(- (bv2nat (bvneg " ++ arg ++ ")))" ++ ")", st1)
            | _ => none
      | _ => none
  | .mk "const_array" [a0, a1] _ =>
      match a0.sort with
      | some (.sortSort _ (.array aid dom rng)) => do
          let (sortStr, st1) ← toSmtLibSort st (.array aid dom rng)
          let (fill, st2) ← toSExpr st1 a1
          some ("(" ++ "(as const " ++ sortStr ++ ") " ++ fill ++ ")", st2)
      | _ => none
  | .mk "const_array" _ _ => none
  | .mk "tuple_get" [a0, a1] _ =>
      match a0.sort with
      | some (.tuple _ _ members _) => do
          let index ← stoul a1.name
          if h : index < members.length then do
            let (tup, st1) ← toSExpr st a0
            some ("(" ++ "|" ++ members.get ⟨index, h⟩ ++ "| " ++ tup ++ ")", st1)
          else none
      | _ => none
  | .mk "tuple_get" _ _ => none
  | .mk "tuple_constructor" args sort =>
      match sort with
      | some (.tuple _ tname _ _) => do
          let (argsStr, st1) ← toSExprArgs st args
          some ("(" ++ "|" ++ tname ++ "|" ++ argsStr ++ ")", st1)
      | _ => none
  | .mk name args _ => do
      let (argsStr, st1) ← toSExprArgs st args
      some ("(" ++ name ++ argsStr ++ ")", st1)

/-- The argument loop shared by the generic-application and
`tuple_constructor` branches of `toSExpr`: `" " ++ arg_i` per argument. -/
def toSExprArgs (st : SMTState) : List Expression → Option (String × SMTState)
  | [] => some ("", st)
  | a :: rest => do
      let (s, st1) ← toSExpr st a
      let (tail, st2) ← toSExprArgs st1 rest
      some (" " ++ s ++ tail, st2)

end

/-- `SMTLib2Interface::addAssertion`: emit `(assert <expr>)`. -/
def addAssertion (st : SMTState) (e : Expression) : Option SMTState :=
  match toSExpr st e with
  | none => none
  | some (s, st1) => write st1 ("(assert " ++ s ++ ")")

/-- The first loop of `SMTLib2Interface::checkSatAndGetValuesCommand`,
starting at index `i`: per expression, `smtAssert` that its sort is Int
or Bool, then emit a `declare-const` and an equality assertion against
the reserved name `|EVALEXPR_<i>|`. -/
def evalDecls (st : SMTState) (i : Nat) : List Expression → Option (String × SMTState)
  | [] => some ("", st)
  | e :: rest =>
      match e.sort with
      | none => none
      | some srt =>
          if srt.kind = .int ∨ srt.kind = .bool then
            match toSExpr st e with
            | none => none
            | some (eStr, st1) =>
                match evalDecls st1 (i + 1) rest with
                | none => none
                | some (tail, st2) =>
                    some ("(declare-const |EVALEXPR_" ++ toString i ++ "| "
                      ++ (if srt.kind = .int then "Int" else "Bool") ++ ")\n"
                      ++ "(assert (= |EVALEXPR_" ++ toString i ++ "| " ++ eStr ++ "))\n"
                      ++ tail, st2)
          else none

/-- The second loop of `checkSatAndGetValuesCommand`: the argument list
of the `get-value` command, `"|EVALEXPR_i| "` for `i` in `0..k`. -/
def evalNames (k : Nat) : String :=
  String.join ((List.range k).map (fun i => "|EVALEXPR_" ++ toString i ++ "| "))

/-- `SMTLib2Interface::checkSatAndGetValuesCommand`: `(check-sat)` alone
for an empty evaluation list; otherwise the declare/assert block, then
`(check-sat)`, then one `get-value` over all the reserved constants. -/
def checkSatAndGetValuesCommand (st : SMTState) (es : List Expression) :
    Option (String × SMTState) :=
  match es with
  | [] => some ("(check-sat)\n", st)
  | _ =>
      match evalDecls st 0 es with
      | none => none
      | some (decls, st1) =>
          some (decls ++ "(check-sat)\n" ++ "(get-value (" ++ evalNames es.length ++ "))\n", st1)

/-- `resultFromSolverResponse`: classify a reply by its first characters
(`boost::starts_with`, modelled as a character-list prefix test). -/
def resultFromSolverResponse (response : String) : CheckResult :=
  if "sat".data.isPrefixOf response.data then .SATISFIABLE
  else if "unsat".data.isPrefixOf response.data then .UNSATISFIABLE
  else if "unknown".data.isPrefixOf response.data then .UNKNOWN
  else .ERROR

/-- `solverAnswered`: a verdict is definitive iff it is Satisfiable or
Unsatisfiable. -/
def solverAnswered (result : CheckResult) : Bool :=
  result = CheckResult.SATISFIABLE ∨ result = CheckResult.UNSATISFIABLE

/-- The iterator loop of `parseValues(_start, _end)`: per round, advance
past the next space, take up to the next `)` as the value token, then
resume at the next `(`. -/
def parseValuesFrom : List Char → List String
  | [] => []
  | c :: cs =>
      let valStart := ((c :: cs).dropWhile (fun ch => ch ≠ ' ')).drop 1
      let val := valStart.takeWhile (fun ch => ch ≠ ')')
      let next := (valStart.dropWhile (fun ch => ch ≠ ')')).dropWhile (fun ch => ch ≠ '(')
      String.mk val :: parseValuesFrom next
termination_by l => l.length
decreasing_by
  simp only [valStart, List.length_cons]
  have h1 : ((c :: cs).dropWhile (fun ch => ch ≠ ' ')).length ≤ cs.length + 1 :=
    ((c :: cs).dropWhile_sublist (fun ch => ch ≠ ' ')).length_le
  have h2 : (((c :: cs).dropWhile (fun ch => ch ≠ ' ')).drop 1).length
      = ((c :: cs).dropWhile (fun ch => ch ≠ ' ')).length - 1 := by
    simp [List.length_drop]
  have h3 : ((((c :: cs).dropWhile (fun ch => ch ≠ ' ')).drop 1).dropWhile
        (fun ch => ch ≠ ')')).length
      ≤ (((c :: cs).dropWhile (fun ch => ch ≠ ' ')).drop 1).length :=
    ((((c :: cs).dropWhile (fun ch => ch ≠ ' ')).drop 1).dropWhile_sublist
      (fun ch => ch ≠ ')')).length_le
  have h4 : (((((c :: cs).dropWhile (fun ch => ch ≠ ' ')).drop 1).dropWhile
        (fun ch => ch ≠ ')')).dropWhile (fun ch => ch ≠ '(')).length
      ≤ ((((c :: cs).dropWhile (fun ch => ch ≠ ' ')).drop 1).dropWhile
        (fun ch => ch ≠ ')')).length :=
    (((((c :: cs).dropWhile (fun ch => ch ≠ ' ')).drop 1).dropWhile
      (fun ch => ch ≠ ')')).dropWhile_sublist (fun ch => ch ≠ '(')).length_le
  omega

/-- `parseValues(solverAnswer)`: start the scan at the first newline of
the reply (skipping the verdict echo line). -/
def parseValues (solverAnswer : String) : List String :=
  parseValuesFrom (solverAnswer.data.dropWhile (fun ch => ch ≠ '\n'))

/-- One backend callback outcome: the `success` flag and
`responseOrErrorMessage` of `ReadCallback::Result`. -/
abbrev CallbackOutcome := Bool × String

/-- The backend loop of `SMTLib2Interface::check`, aggregating the
running `lastResult`/`finalValues` over the callback outcomes in order:
failures are skipped; the first definitive answer is adopted (parsing
values when Satisfiable); a second, different definitive answer yields
`Conflicting` and stops the loop; `unknown` upgrades only an `Error`. -/
def checkLoop (lastResult : CheckResult) (finalValues : List String) :
    List CallbackOutcome → CheckResult × List String
  | [] => (lastResult, finalValues)
  | (success, response) :: rest =>
      if !success then checkLoop lastResult finalValues rest
      else
        let result := resultFromSolverResponse response
        if solverAnswered result then
          if !solverAnswered lastResult then
            checkLoop result
              (if result = .SATISFIABLE then parseValues response else finalValues) rest
          else if lastResult ≠ result then (CheckResult.CONFLICTING, finalValues)
          else checkLoop lastResult finalValues rest
        else
          if result = .UNKNOWN ∧ lastResult = .ERROR then checkLoop result finalValues rest
          else checkLoop lastResult finalValues rest

/-- The backend identifier list built from `m_enabledSolvers`. -/
def solverCommandsOf (choice : SMTSolverChoice) : List String :=
  (if choice.z3 then ["z3 rlimit=1000000"] else [])
  ++ (if choice.cvc4 then ["cvc4"] else [])

/-- Modelled from the spec: `ReadCallback::kindString(Kind::SMTQuery)`
(defined in `libsolidity/interface/ReadFile.h`, not part of this slice)
is the fixed query-kind tag prepended, with a space, to the backend
identifier in the request label. -/
def smtQueryKindString : String := "smt-query"

/-- `SMTLib2Interface::check`: build the query (accumulated script joined
with newlines, plus the generated tail command), consult each enabled
backend through the callback, aggregate with `checkLoop`, and log the
query in `m_unhandledQueries` when the final verdict is `Error`. -/
def check (st : SMTState) (cb : String → String → CallbackOutcome)
    (es : List Expression) : Option (CheckResult × List String × SMTState) :=
  let script := String.intercalate "\n" st.accumulatedOutput
  match checkSatAndGetValuesCommand st es with
  | none => none
  | some (cmd, st1) =>
      let query := script ++ cmd
      let outcomes := (solverCommandsOf st.enabledSolvers).map
        (fun s => cb (smtQueryKindString ++ " " ++ s) query)
      let (result, finalValues) := checkLoop .ERROR [] outcomes
      let st2 :=
        if result = .ERROR then
          { st1 with unhandledQueries := st1.unhandledQueries ++ [query] }
        else st1
      some (result, finalValues, st2)

/-- `SMTLib2Interface::dumpQuery`: the exact text `check` would send,
without sending it. -/
def dumpQuery (st : SMTState) (es : List Expression) : Option (String × SMTState) :=
  match checkSatAndGetValuesCommand st es with
  | none => none
  | some (cmd, st1) =>
      some (String.intercalate "\n" st.accumulatedOutput ++ cmd, st1)

/-- Modelled from the spec: `langutil::isWhiteSpace` (from
`liblangutil/Common.h`, not part of this slice) — whitespace is space,
newline, tab or carriage return. -/
def isWhiteSpace (c : Char) : Bool :=
  c = ' ' ∨ c = '\n' ∨ c = '\t' ∨ c = '\r'

/-- The character source of `SMTLib2Parser`: the remaining input, the
one-character lookahead `m_token`, and the stream's good/failed flag.
End of input is represented by the sentinel token `'\x00'` — the value
the source code itself tests for (`token() != 0`). -/
structure ParserState where
  rest : List Char
  tok : Char
  good : Bool

/-- One `m_input.get()`: yield the next character, or the end sentinel
(setting the stream's fail state) when the input is exhausted. -/
def getChar (s : ParserState) : ParserState :=
  match s.rest with
  | [] => { rest := [], tok := '\x00', good := false }
  | c :: cs => { rest := cs, tok := c, good := s.good }

/-- The comment loop inside `SMTLib2Parser::advance`: after reading a
`;`, keep reading until a newline or end of input. -/
def skipComment (s : ParserState) : ParserState :=
  match hr : s.rest with
  | [] =>
      if s.tok ≠ '\n' ∧ s.tok ≠ '\x00' then { rest := [], tok := '\x00', good := false }
      else s
  | _ :: _ =>
      if s.tok ≠ '\n' ∧ s.tok ≠ '\x00' then skipComment (getChar s)
      else s
termination_by s.rest.length
decreasing_by
  simp only [getChar, hr, List.length_cons]
  omega

/-- `SMTLib2Parser::advance`: reading from an already-failed stream
throws `ParsingException` (`none` here); otherwise fetch one character
and, if it starts a `;` comment, consume to end of line. -/
def advance (s : ParserState) : Option ParserState :=
  if !s.good then none
  else
    let s1 := getChar s
    if s1.tok = ';' then some (skipComment s1) else some s1

/-- `SMTLib2Parser::skipWhitespace` (fuel-indexed: the fuel only bounds
the recursion depth and is irrelevant once large enough). -/
def skipWS : Nat → ParserState → Option ParserState
  | 0, _ => none
  | fuel + 1, s =>
      if isWhiteSpace s.tok then
        match advance s with
        | none => none
        | some s1 => skipWS fuel s1
      else some s

/-- The character loop of `SMTLib2Parser::parseToken`: a `|...|` token is
read verbatim up to the closing pipe; an unquoted token stops at
whitespace, `(`, `)` or end of input. -/
def parseTokenLoop : Nat → Bool → ParserState → List Char → Option (List Char × ParserState)
  | 0, _, _, _ => none
  | fuel + 1, isPipe, s, acc =>
      if s.tok = '\x00' then some (acc.reverse, s)
      else if isPipe ∧ s.tok = '|' then
        match advance s with
        | none => none
        | some s1 => some (acc.reverse, s1)
      else if ¬isPipe ∧ (isWhiteSpace s.tok ∨ s.tok = '(' ∨ s.tok = ')') then
        some (acc.reverse, s)
      else
        match advance s with
        | none => none
        | some s1 => parseTokenLoop fuel isPipe s1 (s.tok :: acc)

/-- `SMTLib2Parser::parseToken`: skip whitespace, detect a pipe-quoted
token, and run the character loop. -/
def parseToken (fuel : Nat) (s : ParserState) : Option (String × ParserState) :=
  match skipWS fuel s with
  | none => none
  | some s1 =>
      if s1.tok = '|' then
        match advance s1 with
        | none => none
        | some s2 =>
            match parseTokenLoop fuel true s2 [] with
            | none => none
            | some (cs, s3) => some (String.mk cs, s3)
      else
        match parseTokenLoop fuel false s1 [] with
        | none => none
        | some (cs, s3) => some (String.mk cs, s3)

/-- The parse tree of `SMTLib2Expression`: an atom or a list of nodes. -/
inductive SExpr where
  | atom (s : String)
  | list (xs : List SExpr)

mutual

/-- `SMTLib2Expression::toString`: atoms verbatim, lists parenthesised
and joined with single spaces (`joinHumanReadable`, modelled from the
spec as a plain single-space join). -/
def SExpr.toText : SExpr → String
  | .atom s => s
  | .list xs => "(" ++ String.intercalate " " (toTextList xs) ++ ")"

/-- The elementwise rendering of a node list. -/
def toTextList : List SExpr → List String
  | [] => []
  | x :: xs => SExpr.toText x :: toTextList xs

end

mutual

/-- `SMTLib2Parser::parseExpression`: skip whitespace; on `(`, parse
subexpressions until the matching `)` (`solAssert` on the closing
token), then simulate whitespace rather than reading past the closing
delimiter; otherwise parse one token as an atom. -/
def parseExpression : Nat → ParserState → Option (SExpr × ParserState)
  | 0, _ => none
  | fuel + 1, s =>
      match skipWS (fuel + 1) s with
      | none => none
      | some s1 =>
          if s1.tok = '(' then
            match advance s1 with
            | none => none
            | some s2 =>
                match skipWS fuel s2 with
                | none => none
                | some s3 =>
                    match parseSubExpressions fuel s3 with
                    | none => none
                    | some (subs, s4) =>
                        if s4.tok = ')' then
                          some (.list subs, { s4 with tok := ' ' })
                        else none
          else
            match parseToken fuel s1 with
            | none => none
            | some (t, s2) => some (.atom t, s2)

/-- The subexpression loop of `parseExpression`: parse expressions, each
followed by `skipWhitespace`, while the lookahead is neither the end
sentinel nor `)`. -/
def parseSubExpressions : Nat → ParserState → Option (List SExpr × ParserState)
  | 0, _ => none
  | fuel + 1, s =>
      if s.tok = '\x00' ∨ s.tok = ')' then some ([], s)
      else
        match parseExpression fuel s with
        | none => none
        | some (e, s1) =>
            match skipWS fuel s1 with
            | none => none
            | some s2 =>
                match parseSubExpressions fuel s2 with
                | none => none
                | some (es, s3) => some (e :: es, s3)

end

/-- Modelled from the spec: the `SMTLib2Parser` constructor (declared in
`libsmtutil/SMTLibParser.h`, not part of this slice) primes the
one-character lookahead from the stream; per the spec a leading `;`
comment is skipped like any other, so priming goes through the same
comment handling as `advance`. -/
def mkParser (input : String) : ParserState :=
  let s1 := getChar { rest := input.data, tok := ' ', good := true }
  if s1.tok = ';' then skipComment s1 else s1

/-- Spec-side rendering of the claimed (amended) tail command for a
non-empty evaluation list of raw `(text, sort)` pairs: for each index
`i` in order a `declare-const` of the pipe-quoted reserved name and an
assertion equating it to the expression text, then `(check-sat)`, then
one `get-value` listing the pipe-quoted constants in declaration order.
Stated independently of the source builder (which threads an index
accumulator) so the two can be compared. -/
def specTailText (l : List (String × LSort)) : String :=
  String.join ((l.enumFrom 0).map (fun q =>
    "(declare-const |EVALEXPR_" ++ toString q.1 ++ "| "
    ++ (if q.2.2.kind = .int then "Int" else "Bool") ++ ")\n"
    ++ "(assert (= |EVALEXPR_" ++ toString q.1 ++ "| " ++ q.2.1 ++ "))\n"))
  ++ "(check-sat)\n" ++ "(get-value (" ++ evalNames l.length ++ "))\n"

/-! ## Claim C2: pop at depth 1 -/

/-- C2 (counterexample): popping the sole remaining scope of a fresh
session is *not* a contract violation in the code: the assertion in
`pop` only checks that the stack is non-empty before removal, so a
`pop` at depth 1 succeeds and leaves an empty scope stack, contradicting
both the claimed fail-fast behaviour and the claimed ≥ 1 invariant. -/
theorem popOfSoleScopeSucceeds :
    pop (newInterface ⟨true, true⟩ none)
      = some { newInterface ⟨true, true⟩ none with accumulatedOutput := [] } := rfl

/-- C2 (amended): `pop()` is a contract violation (assertion failure)
exactly when the scope stack is already empty (depth 0) — so a `pop` at
depth 1 succeeds, emptying the stack — and a matched `push`/`pop` pair
restores the state exactly, so balanced sequences preserve the depth. -/
theorem popFailsIffStackEmpty (st : SMTState) :
    (pop st = none ↔ st.accumulatedOutput = []) ∧ pop (push st) = some st := by
  constructor
  · by_cases hc : st.accumulatedOutput = [] <;> simp [pop, hc]
  · simp [pop, push, List.dropLast_concat]

/-- C2 (witness): the amended theorem applied to a concrete session state
with an empty scope stack. -/
theorem popFailsIffStackEmptyWitness :
    pop { accumulatedOutput := [], varTable := [], userSorts := [], sortNames := [],
          unhandledQueries := [], enabledSolvers := ⟨true, true⟩, queryTimeout := none }
      = none :=
  (popFailsIffStackEmpty _).1.mpr rfl

/-! ## Claim C5: `int2bv` rendering -/

/-- C5: for an application expression named `int2bv` whose value argument
is the literal `5` and whose width-literal argument is `8`, `toSExpr`
returns exactly
`(ite (>= 5 0) ((_ int2bv 8) 5) (bvneg ((_ int2bv 8) (- 5))))`,
leaving the session state untouched, in every session state. -/
theorem int2bvRendersTwosComplement (st : SMTState) :
    toSExpr st (.mk "int2bv" [.mk "5" [] none, .mk "8" [] none] none)
      = some ("(ite (>= 5 0) ((_ int2bv 8) 5) (bvneg ((_ int2bv 8) (- 5))))", st) := by
  simp [toSExpr]
  rfl

/-! ## Claim C7: get-value scan -/

/-- Dropping while a predicate holds skips any prefix on which it holds
everywhere. -/
theorem dropWhileAppendOfAll {α} (p : α → Bool) (l1 l2 : List α) (h : ∀ c ∈ l1, p c = true) :
    (l1 ++ l2).dropWhile p = l2.dropWhile p := by
  induction l1 with
  | nil => rfl
  | cons a l ih =>
      simp only [List.cons_append, List.dropWhile_cons, h a (List.mem_cons_self a l), if_true]
      exact ih (fun c hc => h c (List.mem_cons_of_mem _ hc))

/-- C7: value extraction skips the reply's first line (the scan starts at
its first newline) and then collects the value token of each
parenthesised `(name value)` pair in order; in particular the reply
`sat\n((EVALEXPR_0 5) (EVALEXPR_1 true))\n` yields `["5", "true"]`. -/
theorem parseValuesScan :
    (∀ line rest : String, (∀ c ∈ line.data, c ≠ '\n') →
        parseValues (line ++ "\n" ++ rest) = parseValuesFrom ('\n' :: rest.data)) ∧
    parseValues "sat\n((EVALEXPR_0 5) (EVALEXPR_1 true))\n" = ["5", "true"] := by
  constructor
  · intro line rest h
    have hd : (line ++ "\n" ++ rest).data = line.data ++ ('\n' :: rest.data) := by
      simp [String.data_append]
    have hall : ∀ c ∈ line.data, (fun ch => decide (ch ≠ '\n')) c = true := by
      intro c hc
      simp [h c hc]
    rw [parseValues, hd, dropWhileAppendOfAll _ _ _ hall]
    simp [List.dropWhile]
  · simp [parseValues, parseValuesFrom, List.dropWhile, List.takeWhile]

/-- C7 (witness): the first-line-skip clause applied to the verdict line
`sat` and a concrete get-value remainder. -/
theorem parseValuesScanWitness :
    parseValues ("sat" ++ "\n" ++ "((x 1))") = parseValuesFrom ('\n' :: "((x 1))".data) :=
  parseValuesScan.1 "sat" "((x 1))" (by decide)

/-! ## Claim C9: s-expression parser round trip -/

/-- C9: parsing `(a (b c) d)` yields the node
`list [atom a, list [atom b, atom c], atom d]`; rendering that node
produces exactly `(a (b c) d)`; parsing `|foo bar|` yields the single
atom `foo bar`; and a `;` line comment is skipped, so parsing
`; comment\nrest` yields the atom `rest`.  (The fuel argument `30` only
bounds recursion depth; it is ample for these inputs.) -/
theorem sexprParserSpec :
    (parseExpression 30 (mkParser "(a (b c) d)")).map Prod.fst
      = some (.list [.atom "a", .list [.atom "b", .atom "c"], .atom "d"]) ∧
    (SExpr.list [.atom "a", .list [.atom "b", .atom "c"], .atom "d"]).toText = "(a (b c) d)" ∧
    (parseExpression 30 (mkParser "|foo bar|")).map Prod.fst = some (.atom "foo bar") ∧
    (parseExpression 30 (mkParser "; comment\nrest")).map Prod.fst = some (.atom "rest") := by
  refine ⟨?_, ?_, ?_, ?_⟩
  · simp [mkParser, getChar, parseExpression, parseSubExpressions, parseToken, parseTokenLoop,
      skipWS, advance, skipComment, isWhiteSpace]
  · simp [SExpr.toText, toTextList]
    rfl
  · simp [mkParser, getChar, parseExpression, parseSubExpressions, parseToken, parseTokenLoop,
      skipWS, advance, skipComment, isWhiteSpace]
  · simp [mkParser, getChar, parseExpression, parseSubExpressions, parseToken, parseTokenLoop,
      skipWS, advance, skipComment, isWhiteSpace]

/-! ## Claim C3: the generated tail command -/

/-- Folding string concatenation from an arbitrary accumulator factors
the accumulator out. -/
theorem stringFoldlShift (L : List String) :
    ∀ a : String, List.foldl (fun r s => r ++ s) a L
      = a ++ List.foldl (fun r s => r ++ s) "" L := by
  induction L with
  | nil => intro a; simp
  | cons x xs ih =>
      intro a
      simp only [List.foldl_cons]
      rw [ih (a ++ x), ih ("" ++ x)]
      simp [String.append_assoc]

/-- The declare/assert loop on leaf expressions of Int or Bool sort,
started at any index, produces exactly the indexed declare-const and
assertion lines in order. -/
theorem evalDeclsLeaves (l : List (String × LSort)) :
    ∀ (st : SMTState) (i : Nat), (∀ p ∈ l, p.2.kind = .int ∨ p.2.kind = .bool) →
    evalDecls st i (l.map (fun p => .mk p.1 [] (some p.2)))
      = some (String.join ((l.enumFrom i).map (fun q =>
          "(declare-const |EVALEXPR_" ++ toString q.1 ++ "| "
          ++ (if q.2.2.kind = .int then "Int" else "Bool") ++ ")\n"
          ++ "(assert (= |EVALEXPR_" ++ toString q.1 ++ "| " ++ q.2.1 ++ "))\n")), st) := by
  induction l with
  | nil => intro st i h; simp [evalDecls, String.join]
  | cons p l ih =>
      intro st i h
      have hp := h p (List.mem_cons_self p l)
      have hrest := ih st (i + 1) (fun q hq => h q (List.mem_cons_of_mem _ hq))
      simp [evalDecls, Expression.sort, hp, toSExpr, hrest, List.enumFrom, String.join]
      conv_rhs => rw [stringFoldlShift]

/-- The declare/assert loop fails (contract violation) whenever any
member of the evaluation list has a null sort or a sort that is neither
Int nor Bool. -/
theorem evalDeclsBadSort (es : List Expression) :
    ∀ (st : SMTState) (i : Nat) (e : Expression), e ∈ es →
    (∀ s, e.sort = some s → s.kind ≠ .int ∧ s.kind ≠ .bool) →
    evalDecls st i es = none := by
  induction es with
  | nil => intro st i e he; exact absurd he (List.not_mem_nil e)
  | cons e0 rest ih =>
      intro st i e he hbad
      rcases List.mem_cons.mp he with rfl | hmem
      · match hs : e.sort with
        | none => simp [evalDecls, hs]
        | some s =>
            have := hbad s hs
            simp [evalDecls, hs, this.1, this.2]
      · match hs : e0.sort with
        | none => simp [evalDecls, hs]
        | some s =>
            by_cases hk : s.kind = .int ∨ s.kind = .bool
            · match ht : toSExpr st e0 with
              | none => simp [evalDecls, hs, hk, ht]
              | some p =>
                  simp [evalDecls, hs, hk, ht, ih p.2 (i + 1) e hmem hbad]
            · simp [evalDecls, hs] at hk ⊢
              simp [hk.1, hk.2]

set_option maxRecDepth 4000 in
/-- C3 (counterexample): for one Int-sorted evaluate-expression `x`, the
generated tail command pipe-quotes the reserved name — the command is
`... (get-value (|EVALEXPR_0| ))` — and the claimed unquoted form
`(get-value (EVALEXPR_0 ))` does not occur in it at all. -/
theorem getValueCommandPipeQuotes :
    checkSatAndGetValuesCommand (newInterface ⟨true, true⟩ none)
        [.mk "x" [] (some (.int 0 false))]
      = some ("(declare-const |EVALEXPR_0| Int)\n(assert (= |EVALEXPR_0| x))\n"
          ++ "(check-sat)\n(get-value (|EVALEXPR_0| ))\n", newInterface ⟨true, true⟩ none) ∧
    ¬ ("(get-value (EVALEXPR_0 ))".data <:+:
        ("(declare-const |EVALEXPR_0| Int)\n(assert (= |EVALEXPR_0| x))\n"
          ++ "(check-sat)\n(get-value (|EVALEXPR_0| ))\n").data) := by
  constructor
  · simp [checkSatAndGetValuesCommand, evalDecls, toSExpr, evalNames, Expression.sort]
    rfl
  · decide

/-- C3 (amended): the tail command is exactly `(check-sat)\n` for an
empty evaluation list; for a non-empty list of (leaf) expressions of Int
or Bool sort it is, per index in order, a declare-const of the
*pipe-quoted* reserved name `|EVALEXPR_<i>|` and an assertion equating it
to the expression's text, then `(check-sat)`, then a single
`(get-value (|EVALEXPR_0| ... |EVALEXPR_{k-1}| ))` in declaration order;
and an evaluate-expression whose sort is neither Int nor Bool (or is
null) is a contract violation. -/
theorem checkCommandAmended :
    (∀ st : SMTState, checkSatAndGetValuesCommand st [] = some ("(check-sat)\n", st)) ∧
    (∀ (st : SMTState) (l : List (String × LSort)), l ≠ [] →
      (∀ p ∈ l, p.2.kind = .int ∨ p.2.kind = .bool) →
      checkSatAndGetValuesCommand st (l.map (fun p => .mk p.1 [] (some p.2)))
        = some (specTailText l, st)) ∧
    (∀ (st : SMTState) (es : List Expression) (e : Expression), e ∈ es →
      (∀ s, e.sort = some s → s.kind ≠ .int ∧ s.kind ≠ .bool) →
      checkSatAndGetValuesCommand st es = none) := by
  refine ⟨fun st => rfl, ?_, ?_⟩
  · intro st l hne h
    match l with
    | p :: rest =>
        have hd := evalDeclsLeaves (p :: rest) st 0 h
        simp only [List.map_cons] at hd
        simp [checkSatAndGetValuesCommand, hd, specTailText, String.append_assoc,
          List.enumFrom, String.join]
  · intro st es e he hbad
    match es with
    | [] => exact absurd he (List.not_mem_nil e)
    | e0 :: rest =>
        simp [checkSatAndGetValuesCommand, evalDeclsBadSort (e0 :: rest) st 0 e he hbad]

/-- C3 (witness): the amended theorem's k>0 clause applied to one
Int-sorted leaf expression. -/
theorem checkCommandAmendedWitness :
    checkSatAndGetValuesCommand (newInterface ⟨true, true⟩ none)
        ([("x", LSort.int 0 false)].map (fun p => .mk p.1 [] (some p.2)))
      = some (specTailText [("x", LSort.int 0 false)], newInterface ⟨true, true⟩ none) :=
  checkCommandAmended.2.1 (newInterface ⟨true, true⟩ none) [("x", LSort.int 0 false)]
    (by simp) (by intro p hp; simp at hp; simp [hp, LSort.kind])


/-! ## Claim C8: declaration idempotence -/

/-- `write` never changes the declaration table. -/
theorem writeVarTable (st : SMTState) (d : String) (st' : SMTState)
    (h : write st d = some st') : st'.varTable = st.varTable := by
  match hl : st.accumulatedOutput.getLast? with
  | none => simp [write, hl] at h
  | some last => simp [write, hl] at h; rw [← h]

/-- Sort rendering (cache fill, tuple declaration emission included)
never changes the declaration table, by mutual induction over the three
sort-rendering functions. -/
theorem sortVarTable (st : SMTState) (s : LSort) :
    ∀ r st', toSmtLibSort st s = some (r, st') → st'.varTable = st.varTable := by
  induction st, s using toSmtLibSort.induct
  case motive2 st s =>
    exact ∀ r st', sortToString st s = some (r, st') → st'.varTable = st.varTable
  case motive3 st ms cs =>
    exact ∀ r st', tupleFields st ms cs = some (r, st') → st'.varTable = st.varTable
  all_goals intro r st' h
  all_goals try simp_all [toSmtLibSort, sortToString, tupleFields, List.find?_eq_none,
    Prod.forall, writeVarTable]
  · rename_i st0 s0 hnone hsts
    split at h
    · rename_i p hp
      have hpp := List.find?_some hp
      have hmem := List.mem_of_find?_eq_some hp
      simp at hpp
      exact absurd hpp (by simpa using hnone p.1 p.2 (by simpa using hmem))
    · simp at h
  · rename_i st0 s0 nm st1 hnone hsts ih
    split at h
    · rename_i p hp
      have hpp := List.find?_some hp
      have hmem := List.mem_of_find?_eq_some hp
      simp at hpp
      exact absurd hpp (by simpa using hnone p.1 p.2 (by simpa using hmem))
    · simp at h
      rw [← h.2]
  · rename_i hnotin hlen htf hwrite ih
    simp only [write] at hwrite h
    split at hwrite
    · rename_i heq
      rw [heq] at h
      simp at h
    · simp at hwrite
  · rename_i hnotin hlen htf hwrite ih
    simp only [write] at hwrite h
    split at hwrite
    · simp at hwrite
    · rename_i last heq
      rw [heq] at h
      simp at h
      rw [← h.2]



/-- The vector sort-rendering loop never changes the declaration
table. -/
theorem sortListBodyVarTable (l : List LSort) :
    ∀ st r st', sortListBody st l = some (r, st') → st'.varTable = st.varTable := by
  induction l with
  | nil => intro st r st' h; simp [sortListBody] at h; rw [← h.2]
  | cons s rest ih =>
      intro st r st' h
      match hs : toSmtLibSort st s with
      | none => simp [sortListBody, hs] at h
      | some (str, st1) =>
          simp only [sortListBody, hs] at h
          match hr : sortListBody st1 rest with
          | none => simp [hr] at h
          | some (tail, st2) =>
              simp [hr] at h
              rw [← h.2, ih st1 tail st2 hr, sortVarTable st s str st1 hs]

/-- After a successful `declareFunction`, the name is in the table. -/
theorem declareFunctionAddsName (st : SMTState) (name : String) (srt : LSort) (st' : SMTState)
    (h : declareFunction st name srt = some st') :
    st'.varTable.any (fun p => p.1 = name) = true := by
  match srt with
  | .int _ _ | .bool _ | .bitvector _ _ | .array _ _ _ | .tuple _ _ _ _ | .sortSort _ _ =>
      simp [declareFunction] at h
  | .function i dom cod =>
      by_cases hin : st.varTable.any (fun p => p.1 = name) = true
      · simp only [declareFunction, hin, if_true] at h
        simp at h
        rw [← h]
        exact hin
      · simp only [declareFunction, hin] at h
        simp at h
        match hd : toSmtLibSortList st dom with
        | none => simp [hd] at h
        | some (ds, st1) =>
            simp only [hd] at h
            match hc : toSmtLibSort st1 cod with
            | none => simp [hc] at h
            | some (cs, st2) =>
                simp only [hc] at h
                have := writeVarTable _ _ _ h
                rw [this]
                simp

/-- After a successful `declareVariable`, the name is in the table. -/
theorem declareVariableAddsName (st : SMTState) (name : String) (srt : LSort) (st' : SMTState)
    (h : declareVariable st name srt = some st') :
    st'.varTable.any (fun p => p.1 = name) = true := by
  by_cases hk : srt.kind = .function
  · rw [declareVariable, if_pos hk] at h
    exact declareFunctionAddsName st name srt st' h
  · rw [declareVariable, if_neg hk] at h
    by_cases hin : st.varTable.any (fun p => p.1 = name) = true
    · rw [if_pos hin] at h
      simp at h
      rw [← h]
      exact hin
    · rw [if_neg hin] at h
      match hs : toSmtLibSort { st with varTable := (name, srt) :: st.varTable } srt with
      | none => simp [hs] at h
      | some (str, st2) =>
          simp only [hs] at h
          have hw := writeVarTable _ _ _ h
          rw [hw, sortVarTable _ _ _ _ hs]
          simp



/-- C8: declaration is idempotent.  (1) Any successful
`declareVariable`/`declareFunction` leaves the name in the declaration
table; (2) once a name is in the table, declaring it again — with the
same or any other sort, through either entry point — returns the state
completely unchanged (no output line, no table change); (3) a first
declaration of a fresh name appends exactly one `declare-fun` line for
that name to the top scope and one entry to the table. -/
theorem declarationIdempotent :
    (∀ (st : SMTState) (name : String) (srt : LSort) (st' : SMTState),
        (declareVariable st name srt = some st' ∨ declareFunction st name srt = some st') →
        st'.varTable.any (fun p => p.1 = name) = true) ∧
    (∀ (st : SMTState) (name : String) (s2 : LSort),
        st.varTable.any (fun p => p.1 = name) = true →
        declareVariable st name s2 = some st ∧
        (s2.kind = .function → declareFunction st name s2 = some st)) ∧
    (∀ (st : SMTState) (name : String) (srt : LSort) (sortText : String) (stR : SMTState)
        (lastBuf : String),
        st.varTable.any (fun p => p.1 = name) = false →
        srt.kind ≠ .function →
        toSmtLibSort { st with varTable := (name, srt) :: st.varTable } srt
          = some (sortText, stR) →
        stR.accumulatedOutput.getLast? = some lastBuf →
        declareVariable st name srt
          = some { stR with accumulatedOutput := stR.accumulatedOutput.dropLast
              ++ [lastBuf ++ ("(declare-fun |" ++ name ++ "| () " ++ sortText ++ ")") ++ "\n"] }
          ∧ stR.varTable = (name, srt) :: st.varTable) := by
  refine ⟨?_, ?_, ?_⟩
  · intro st name srt st' h
    rcases h with h | h
    · exact declareVariableAddsName st name srt st' h
    · exact declareFunctionAddsName st name srt st' h
  · intro st name s2 hin
    constructor
    · by_cases hk : s2.kind = .function
      · rw [declareVariable, if_pos hk]
        match s2 with
        | .function i dom cod => simp [declareFunction, hin]
        | .int _ _ | .bool _ | .bitvector _ _ | .array _ _ _ | .tuple _ _ _ _
        | .sortSort _ _ => simp [LSort.kind] at hk
      · rw [declareVariable, if_neg hk, if_pos hin]
    · intro hk
      match s2 with
      | .function i dom cod => simp [declareFunction, hin]
      | .int _ _ | .bool _ | .bitvector _ _ | .array _ _ _ | .tuple _ _ _ _
      | .sortSort _ _ => simp [LSort.kind] at hk
  · intro st name srt sortText stR lastBuf hfresh hkind hsort hlast
    refine ⟨?_, sortVarTable _ _ _ _ hsort⟩
    rw [declareVariable, if_neg hkind, if_neg (by simp [hfresh])]
    simp [hsort, write, hlast]


/-- C8 (witness): the no-op clause applied to a concrete session whose
table already holds `x`. -/
theorem declarationIdempotentWitness :
    declareVariable { accumulatedOutput := ["(set-logic ALL)\n"],
                      varTable := [("x", LSort.int 0 false)], userSorts := [],
                      sortNames := [], unhandledQueries := [],
                      enabledSolvers := ⟨true, true⟩, queryTimeout := none }
      "x" (.bool 1)
      = some { accumulatedOutput := ["(set-logic ALL)\n"],
               varTable := [("x", LSort.int 0 false)], userSorts := [],
               sortNames := [], unhandledQueries := [],
               enabledSolvers := ⟨true, true⟩, queryTimeout := none } :=
  (declarationIdempotent.2.1 _ "x" (.bool 1) (by simp)).1


/-! ## Claim C6: Unknown never overrides a definitive verdict -/


/-- A definitive running verdict is not `Error`. -/
theorem solverAnsweredNeError (last : CheckResult) (h : solverAnswered last = true) :
    last ≠ .ERROR := by
  intro he
  rw [he] at h
  simp [solverAnswered] at h

/-- One aggregation step on a successful reply classified `Unknown` is a
no-op whenever the running verdict is already definitive. -/
theorem checkLoopSkipsUnknownStep (last : CheckResult) (vals : List String) (resp : String)
    (l : List CallbackOutcome) (hdef : solverAnswered last = true)
    (hu : resultFromSolverResponse resp = .UNKNOWN) :
    checkLoop last vals ((true, resp) :: l) = checkLoop last vals l := by
  have hne := solverAnsweredNeError last hdef
  simp [checkLoop, hu, solverAnswered, hne]

/-- Removing a successful `Unknown`-classified outcome from anywhere
after a definitive running verdict has been (or will have been) reached
does not change the aggregation result. -/
theorem checkLoopUnknownInsertion (l1 : List CallbackOutcome) :
    ∀ (last : CheckResult) (vals : List String) (l2 : List CallbackOutcome)
      (u : CallbackOutcome),
    u.1 = true → resultFromSolverResponse u.2 = .UNKNOWN →
    (solverAnswered last = true ∨
      ∃ o ∈ l1, o.1 = true ∧ solverAnswered (resultFromSolverResponse o.2) = true) →
    checkLoop last vals (l1 ++ u :: l2) = checkLoop last vals (l1 ++ l2) := by
  induction l1 with
  | nil =>
      intro last vals l2 u hu1 hu2 hd
      rcases hd with hd | ⟨o, ho, _⟩
      · obtain ⟨s, resp⟩ := u
        simp only at hu1 hu2
        subst hu1
        exact checkLoopSkipsUnknownStep last vals resp l2 hd hu2
      · exact absurd ho (List.not_mem_nil o)
  | cons o l1 ih =>
      intro last vals l2 u hu1 hu2 hd
      obtain ⟨s, resp⟩ := o
      have htail : ∀ last' vals',
          (solverAnswered last' = true ∨
            ∃ o ∈ l1, o.1 = true ∧ solverAnswered (resultFromSolverResponse o.2) = true) →
          checkLoop last' vals' (l1 ++ u :: l2) = checkLoop last' vals' (l1 ++ l2) :=
        fun last' vals' hd' => ih last' vals' l2 u hu1 hu2 hd'
      cases s
      · simp only [List.cons_append, checkLoop, Bool.not_false, if_true]
        apply htail
        rcases hd with hd | ⟨x, hx, hx1, hx2⟩
        · exact Or.inl hd
        · rcases List.mem_cons.mp hx with rfl | hx'
          · simp at hx1
          · exact Or.inr ⟨x, hx', hx1, hx2⟩
      · by_cases hr : solverAnswered (resultFromSolverResponse resp) = true
        · by_cases hl : solverAnswered last = true
          · by_cases heq : last = resultFromSolverResponse resp
            · simp only [List.cons_append, checkLoop]
              simp [hr, hl, heq]
              exact htail _ _ (Or.inl hr)
            · simp only [List.cons_append, checkLoop]
              simp [hr, hl, heq]
          · simp only [List.cons_append, checkLoop]
            simp [hr, hl]
            exact htail _ _ (Or.inl hr)
        · have hnotdef : ∀ P : Prop,
              (∃ x ∈ (true, resp) :: l1, x.1 = true ∧
                solverAnswered (resultFromSolverResponse x.2) = true) →
              ((∃ x ∈ l1, x.1 = true ∧
                solverAnswered (resultFromSolverResponse x.2) = true) → P) → P := by
            intro P hx hk
            rcases hx with ⟨x, hx, hx1, hx2⟩
            rcases List.mem_cons.mp hx with rfl | hx'
            · simp at hx2; exact absurd hx2 (by simpa using hr)
            · exact hk ⟨x, hx', hx1, hx2⟩
          simp only [List.cons_append, checkLoop]
          simp [hr]
          by_cases hun : resultFromSolverResponse resp = .UNKNOWN ∧ last = .ERROR
          · simp [hun.1, hun.2]
            apply htail
            rcases hd with hd | hx
            · rw [hun.2] at hd; simp [solverAnswered] at hd
            · exact hnotdef _ hx Or.inr
          · have hn : ¬ (resultFromSolverResponse resp = .UNKNOWN ∧ last = .ERROR) := hun
            simp [hn]
            apply htail
            rcases hd with hd | hx
            · exact Or.inl hd
            · exact hnotdef _ hx Or.inr

/-- C6: during aggregation, a reply classified `Unknown` is adopted only
while the running result is still `Error`; it never replaces a
definitive result — stepwise, and over whole reply sequences: whenever a
successful definitive reply precedes an `Unknown` one, deleting the
`Unknown` reply leaves the final verdict and values unchanged. -/
theorem unknownNeverOverridesDefinitive :
    (∀ (last : CheckResult) (vals : List String) (resp : String) (l : List CallbackOutcome),
        solverAnswered last = true →
        resultFromSolverResponse resp = .UNKNOWN →
        checkLoop last vals ((true, resp) :: l) = checkLoop last vals l) ∧
    (∀ (l1 l2 : List CallbackOutcome) (u : CallbackOutcome),
        u.1 = true → resultFromSolverResponse u.2 = .UNKNOWN →
        (∃ o ∈ l1, o.1 = true ∧ solverAnswered (resultFromSolverResponse o.2) = true) →
        checkLoop .ERROR [] (l1 ++ u :: l2) = checkLoop .ERROR [] (l1 ++ l2)) :=
  ⟨checkLoopSkipsUnknownStep,
   fun l1 l2 u hu1 hu2 hex =>
     checkLoopUnknownInsertion l1 .ERROR [] l2 u hu1 hu2 (Or.inr hex)⟩

/-- C6 (witness): a `sat` answer followed by an `unknown` one and then an
`unsat` one aggregates exactly as if the `unknown` were absent. -/
theorem unknownNeverOverridesDefinitiveWitness :
    checkLoop .ERROR [] ([(true, "sat")] ++ (true, "unknown") :: [(true, "unsat")])
      = checkLoop .ERROR [] ([(true, "sat")] ++ [(true, "unsat")]) :=
  unknownNeverOverridesDefinitive.2 [(true, "sat")] [(true, "unsat")] (true, "unknown")
    rfl rfl ⟨(true, "sat"), by simp, rfl, rfl⟩



/-! ## Claim C1: two-backend aggregation -/


/-- After two successful but disagreeing definitive answers, the
aggregation result does not depend on any later outcomes: the loop has
stopped. -/
theorem checkLoopStopsOnConflict (o1 o2 : CallbackOutcome) (l2 : List CallbackOutcome)
    (h1 : o1.1 = true) (h2 : o2.1 = true)
    (hd1 : solverAnswered (resultFromSolverResponse o1.2) = true)
    (hd2 : solverAnswered (resultFromSolverResponse o2.2) = true)
    (hne : resultFromSolverResponse o1.2 ≠ resultFromSolverResponse o2.2) :
    checkLoop .ERROR [] (o1 :: o2 :: l2) = checkLoop .ERROR [] [o1, o2] := by
  obtain ⟨s1, r1⟩ := o1
  obtain ⟨s2, r2⟩ := o2
  simp only at h1 h2 hd1 hd2 hne
  subst h1; subst h2
  have e1 : resultFromSolverResponse r1 = .SATISFIABLE ∨
      resultFromSolverResponse r1 = .UNSATISFIABLE := by simpa [solverAnswered] using hd1
  have e2 : resultFromSolverResponse r2 = .SATISFIABLE ∨
      resultFromSolverResponse r2 = .UNSATISFIABLE := by simpa [solverAnswered] using hd2
  rcases e1 with e1 | e1 <;> rcases e2 with e2 | e2 <;>
    first
    | exact absurd (e1.trans e2.symm) hne
    | simp [checkLoop, solverAnswered, e1, e2]

/-- C1: with both backends enabled and both callbacks succeeding on the
built query — if both replies classify Satisfiable the verdict is
Satisfiable with the values parsed from the first backend's reply; if
they split sat/unsat (either order) the verdict is Conflicting; and
after the second of two disagreeing definitive answers no further
backend outcome influences the result (the loop stops). -/
theorem twoBackendCheckAggregation :
    (∀ (st : SMTState) (cb : String → String → CallbackOutcome) (es : List Expression)
        (cmd : String) (st1 : SMTState) (query r1 r2 : String),
      st.enabledSolvers = ⟨true, true⟩ →
      checkSatAndGetValuesCommand st es = some (cmd, st1) →
      query = String.intercalate "\n" st.accumulatedOutput ++ cmd →
      cb (smtQueryKindString ++ " " ++ "z3 rlimit=1000000") query = (true, r1) →
      cb (smtQueryKindString ++ " " ++ "cvc4") query = (true, r2) →
      (resultFromSolverResponse r1 = .SATISFIABLE →
        resultFromSolverResponse r2 = .SATISFIABLE →
        check st cb es = some (.SATISFIABLE, parseValues r1, st1)) ∧
      (resultFromSolverResponse r1 = .SATISFIABLE →
        resultFromSolverResponse r2 = .UNSATISFIABLE →
        check st cb es = some (.CONFLICTING, parseValues r1, st1)) ∧
      (resultFromSolverResponse r1 = .UNSATISFIABLE →
        resultFromSolverResponse r2 = .SATISFIABLE →
        check st cb es = some (.CONFLICTING, [], st1))) ∧
    (∀ (o1 o2 : CallbackOutcome) (l2 : List CallbackOutcome),
      o1.1 = true → o2.1 = true →
      solverAnswered (resultFromSolverResponse o1.2) = true →
      solverAnswered (resultFromSolverResponse o2.2) = true →
      resultFromSolverResponse o1.2 ≠ resultFromSolverResponse o2.2 →
      checkLoop .ERROR [] (o1 :: o2 :: l2) = checkLoop .ERROR [] [o1, o2]) := by
  refine ⟨?_, checkLoopStopsOnConflict⟩
  intro st cb es cmd st1 query r1 r2 hz hcmd hq h1 h2
  have houtcomes : (solverCommandsOf st.enabledSolvers).map
      (fun s => cb (smtQueryKindString ++ " " ++ s)
        (String.intercalate "\n" st.accumulatedOutput ++ cmd))
      = [(true, r1), (true, r2)] := by
    rw [hz]
    simp only [solverCommandsOf, if_true, List.map]
    rw [← hq]
    simp [h1, h2]
  refine ⟨?_, ?_, ?_⟩ <;> intro hr1 hr2 <;>
    simp [check, hcmd, houtcomes, checkLoop, hr1, hr2, solverAnswered]



/-- C1 (witness): both enabled backends answering `sat\n((x 7))\n` yield
`Satisfiable` with the values parsed from the first reply. -/
theorem twoBackendCheckAggregationWitness :
    check (newInterface ⟨true, true⟩ none) (fun _ _ => (true, "sat\n((x 7))\n")) []
      = some (.SATISFIABLE, parseValues "sat\n((x 7))\n", newInterface ⟨true, true⟩ none) :=
  ((twoBackendCheckAggregation.1 (newInterface ⟨true, true⟩ none)
      (fun _ _ => (true, "sat\n((x 7))\n")) [] "(check-sat)\n" (newInterface ⟨true, true⟩ none)
      (String.intercalate "\n" (newInterface ⟨true, true⟩ none).accumulatedOutput
        ++ "(check-sat)\n")
      "sat\n((x 7))\n" "sat\n((x 7))\n"
      rfl rfl rfl rfl rfl).1 rfl rfl)



/-! ## Claim C4: check never raises; Error logging -/


/-- Reply classification never yields `Conflicting`. -/
theorem classifyNeConflicting (resp : String) :
    resultFromSolverResponse resp ≠ .CONFLICTING := by
  simp only [resultFromSolverResponse]
  split_ifs <;> simp

/-- A non-`Error` running verdict can never fall back to `Error`. -/
theorem checkLoopNeError (l : List CallbackOutcome) :
    ∀ (last : CheckResult) (vals : List String), last ≠ .ERROR →
    (checkLoop last vals l).1 ≠ .ERROR := by
  induction l with
  | nil => intro last vals h; simpa [checkLoop] using h
  | cons o rest ih =>
      intro last vals h
      obtain ⟨s, resp⟩ := o
      cases s
      · simpa [checkLoop] using ih last vals h
      · by_cases hr : solverAnswered (resultFromSolverResponse resp) = true
        · by_cases hl : solverAnswered last = true
          · by_cases heq : last = resultFromSolverResponse resp
            · simp [checkLoop, hr, hl, heq]
              exact ih _ _ (heq ▸ h)
            · simp [checkLoop, hr, hl, heq]
          · simp [checkLoop, hr, hl]
            exact ih _ _ (solverAnsweredNeError _ hr)
        · have hun : ¬ (resultFromSolverResponse resp = .UNKNOWN ∧ last = .ERROR) := by
            rintro ⟨_, hl⟩; exact h hl
          simp [checkLoop, hr, hun]
          exact ih _ _ h

/-- The aggregation result is `Error` exactly when the running verdict
started as `Error` and every outcome either failed or classified as
`Error`. -/
theorem checkLoopErrorIff (l : List CallbackOutcome) :
    ∀ (last : CheckResult) (vals : List String),
    ((checkLoop last vals l).1 = .ERROR ↔
      (last = .ERROR ∧ ∀ o ∈ l, o.1 = false ∨ resultFromSolverResponse o.2 = .ERROR)) := by
  induction l with
  | nil => intro last vals; simp [checkLoop]
  | cons o rest ih =>
      intro last vals
      obtain ⟨s, resp⟩ := o
      cases s
      · simp [checkLoop, ih last vals]
      · match hc : resultFromSolverResponse resp with
        | .SATISFIABLE =>
            by_cases hl : solverAnswered last = true
            · have hd : last = .SATISFIABLE ∨ last = .UNSATISFIABLE := by
                simpa [solverAnswered] using hl
              rcases hd with rfl | rfl
              · simp [checkLoop, hc, solverAnswered]
                exact fun hf => absurd hf (checkLoopNeError rest _ _ (by simp))
              · simp [checkLoop, hc, solverAnswered]
            · have hl' : ¬ last = .SATISFIABLE ∧ ¬ last = .UNSATISFIABLE := by
                simpa [solverAnswered, not_or] using hl
              simp [checkLoop, hc, solverAnswered, hl'.1, hl'.2]
              exact fun hf => absurd hf (checkLoopNeError rest _ _ (by simp))
        | .UNSATISFIABLE =>
            by_cases hl : solverAnswered last = true
            · have hd : last = .SATISFIABLE ∨ last = .UNSATISFIABLE := by
                simpa [solverAnswered] using hl
              rcases hd with rfl | rfl
              · simp [checkLoop, hc, solverAnswered]
              · simp [checkLoop, hc, solverAnswered]
                exact fun hf => absurd hf (checkLoopNeError rest _ _ (by simp))
            · have hl' : ¬ last = .SATISFIABLE ∧ ¬ last = .UNSATISFIABLE := by
                simpa [solverAnswered, not_or] using hl
              simp [checkLoop, hc, solverAnswered, hl'.1, hl'.2]
              exact fun hf => absurd hf (checkLoopNeError rest _ _ (by simp))
        | .UNKNOWN =>
            by_cases hl : last = .ERROR
            · simp [checkLoop, hc, solverAnswered, hl]
              exact fun hf => absurd hf (checkLoopNeError rest _ _ (by simp))
            · simp [checkLoop, hc, solverAnswered, hl, ih last vals]
        | .CONFLICTING => exact absurd hc (classifyNeConflicting resp)
        | .ERROR =>
            simp [checkLoop, hc, solverAnswered, ih last vals]



/-- C4 (counterexample): `check` does *not* return a result for every
input — an evaluate-expression whose sort is an array sort is a contract
violation (`smtAssert` in `checkSatAndGetValuesCommand`), so the call
fails instead of returning a `CheckResult`. -/
theorem checkAssertsOnBadSort :
    check (newInterface ⟨true, true⟩ none) (fun _ _ => (true, "sat"))
        [.mk "a" [] (some (.array 0 (.int 1 false) (.int 2 false)))] = none := rfl

/-- C4 (amended): for every input whose tail command builds (all
evaluate-expressions of Int or Bool sort), `check` returns a result; the
verdict is `Error` exactly when every enabled backend's callback failed
or returned a reply classifying as `Error`; and exactly in that case the
full query text is appended once to the unhandled-query log. -/
theorem checkNeverRaisesAndLogsOnError :
    ∀ (st : SMTState) (cb : String → String → CallbackOutcome) (es : List Expression)
      (cmd : String) (st1 : SMTState),
    checkSatAndGetValuesCommand st es = some (cmd, st1) →
    ∃ (r : CheckResult) (vals : List String) (st2 : SMTState),
      check st cb es = some (r, vals, st2) ∧
      (r = .ERROR ↔ ∀ o ∈ (solverCommandsOf st.enabledSolvers).map
          (fun s => cb (smtQueryKindString ++ " " ++ s)
            (String.intercalate "\n" st.accumulatedOutput ++ cmd)),
          o.1 = false ∨ resultFromSolverResponse o.2 = .ERROR) ∧
      st2.unhandledQueries = (if r = .ERROR
        then st1.unhandledQueries
          ++ [String.intercalate "\n" st.accumulatedOutput ++ cmd]
        else st1.unhandledQueries) := by
  intro st cb es cmd st1 hcmd
  rcases hkk : checkLoop .ERROR []
      ((solverCommandsOf st.enabledSolvers).map
        (fun s => cb (smtQueryKindString ++ " " ++ s)
          (String.intercalate "\n" st.accumulatedOutput ++ cmd))) with ⟨r0, v0⟩
  refine ⟨r0, v0, if r0 = .ERROR
      then { st1 with unhandledQueries := st1.unhandledQueries
        ++ [String.intercalate "\n" st.accumulatedOutput ++ cmd] }
      else st1, ?_, ?_, ?_⟩
  · by_cases he : r0 = .ERROR <;> simp [check, hcmd, hkk, he]
  · have := checkLoopErrorIff
      ((solverCommandsOf st.enabledSolvers).map
        (fun s => cb (smtQueryKindString ++ " " ++ s)
          (String.intercalate "\n" st.accumulatedOutput ++ cmd))) .ERROR []
    rw [hkk] at this
    simpa using this
  · by_cases he : r0 = .ERROR <;> simp [he]

/-- C4 (witness): the amended theorem applied to a session whose sole
evaluation list is empty and whose backends' callbacks both fail. -/
theorem checkNeverRaisesAndLogsOnErrorWitness :
    ∃ (r : CheckResult) (vals : List String) (st2 : SMTState),
      check (newInterface ⟨true, true⟩ none) (fun _ _ => (false, "")) []
        = some (r, vals, st2) ∧
      (r = .ERROR ↔ ∀ o ∈ (solverCommandsOf (newInterface ⟨true, true⟩ none).enabledSolvers).map
          (fun s => (fun (_ : String) (_ : String) => ((false : Bool), ""))
            (smtQueryKindString ++ " " ++ s)
            (String.intercalate "\n" (newInterface ⟨true, true⟩ none).accumulatedOutput
              ++ "(check-sat)\n")),
          o.1 = false ∨ resultFromSolverResponse o.2 = .ERROR) ∧
      st2.unhandledQueries = (if r = .ERROR
        then (newInterface ⟨true, true⟩ none).unhandledQueries
          ++ [String.intercalate "\n" (newInterface ⟨true, true⟩ none).accumulatedOutput
            ++ "(check-sat)\n"]
        else (newInterface ⟨true, true⟩ none).unhandledQueries) :=
  checkNeverRaisesAndLogsOnError (newInterface ⟨true, true⟩ none)
    (fun _ _ => (false, "")) [] "(check-sat)\n" (newInterface ⟨true, true⟩ none) rfl



/-! ## Claim C10: tuple datatype deduplication -/


/-- C10: within one session, the `declare-datatypes` declaration for a
tuple sort is emitted at most once per quoted tuple name, deduplicated
through the `m_userSorts` registry rather than by sort instance
identity: rendering a *second, separately constructed* (fresh identity
tags 12/13, so the per-instance name cache cannot hit) but structurally
identical tuple sort of the same name emits nothing new — the scope
output and the registry are unchanged — and every later render of either
instance returns the quoted tuple name with the state unchanged. -/
theorem tupleDatatypeDeclaredOncePerName (nm : String) :
    ∃ stA stB : SMTState,
      toSmtLibSort (newInterface ⟨true, true⟩ none) (.tuple 10 nm ["m"] [.int 11 false])
        = some ("|" ++ nm ++ "|", stA) ∧
      toSmtLibSort stA (.tuple 12 nm ["m"] [.int 13 false]) = some ("|" ++ nm ++ "|", stB) ∧
      stB.accumulatedOutput = stA.accumulatedOutput ∧
      stB.userSorts = stA.userSorts ∧
      stA.userSorts.map Prod.fst = ["|" ++ nm ++ "|"] ∧
      stA.accumulatedOutput = ["(set-option :produce-models true)\n(set-logic ALL)\n"
        ++ ("(declare-datatypes ((" ++ ("|" ++ nm ++ "|") ++ " 0)) ((("
            ++ ("|" ++ nm ++ "|") ++ " (|m| Int)" ++ "))))") ++ "\n"] ∧
      toSmtLibSort stB (.tuple 10 nm ["m"] [.int 11 false]) = some ("|" ++ nm ++ "|", stB) ∧
      toSmtLibSort stB (.tuple 12 nm ["m"] [.int 13 false]) = some ("|" ++ nm ++ "|", stB) := by
  refine
    ⟨{ accumulatedOutput := ["(set-option :produce-models true)\n(set-logic ALL)\n"
         ++ ("(declare-datatypes ((" ++ ("|" ++ nm ++ "|") ++ " 0)) ((("
             ++ ("|" ++ nm ++ "|") ++ " (|m| Int)" ++ "))))") ++ "\n"],
       varTable := [],
       userSorts := [("|" ++ nm ++ "|",
         "(declare-datatypes ((" ++ ("|" ++ nm ++ "|") ++ " 0)) ((("
           ++ ("|" ++ nm ++ "|") ++ " (|m| Int)" ++ "))))")],
       sortNames := [(10, "|" ++ nm ++ "|"), (11, "Int")],
       unhandledQueries := [],
       enabledSolvers := ⟨true, true⟩,
       queryTimeout := none },
     { accumulatedOutput := ["(set-option :produce-models true)\n(set-logic ALL)\n"
         ++ ("(declare-datatypes ((" ++ ("|" ++ nm ++ "|") ++ " 0)) ((("
             ++ ("|" ++ nm ++ "|") ++ " (|m| Int)" ++ "))))") ++ "\n"],
       varTable := [],
       userSorts := [("|" ++ nm ++ "|",
         "(declare-datatypes ((" ++ ("|" ++ nm ++ "|") ++ " 0)) ((("
           ++ ("|" ++ nm ++ "|") ++ " (|m| Int)" ++ "))))")],
       sortNames := [(12, "|" ++ nm ++ "|"), (10, "|" ++ nm ++ "|"), (11, "Int")],
       unhandledQueries := [],
       enabledSolvers := ⟨true, true⟩,
       queryTimeout := none },
     ?_, ?_, ?_, ?_, ?_, ?_, ?_, ?_⟩ <;>
  simp [toSmtLibSort, sortToString, tupleFields, write, newInterface, reset, LSort.id,
    String.append_assoc]



/-- C5 (witness): the rendering theorem applied to a fresh session. -/
theorem int2bvRendersTwosComplementWitness :
    toSExpr (newInterface ⟨true, true⟩ none)
        (.mk "int2bv" [.mk "5" [] none, .mk "8" [] none] none)
      = some ("(ite (>= 5 0) ((_ int2bv 8) 5) (bvneg ((_ int2bv 8) (- 5))))",
          newInterface ⟨true, true⟩ none) :=
  int2bvRendersTwosComplement (newInterface ⟨true, true⟩ none)

/-- C10 (witness): the deduplication theorem applied to the concrete
tuple name `T`. -/
theorem tupleDatatypeDeclaredOncePerNameWitness :
    ∃ stA stB : SMTState,
      toSmtLibSort (newInterface ⟨true, true⟩ none) (.tuple 10 "T" ["m"] [.int 11 false])
        = some ("|" ++ "T" ++ "|", stA) ∧
      toSmtLibSort stA (.tuple 12 "T" ["m"] [.int 13 false]) = some ("|" ++ "T" ++ "|", stB) ∧
      stB.accumulatedOutput = stA.accumulatedOutput ∧
      stB.userSorts = stA.userSorts ∧
      stA.userSorts.map Prod.fst = ["|" ++ "T" ++ "|"] ∧
      stA.accumulatedOutput = ["(set-option :produce-models true)\n(set-logic ALL)\n"
        ++ ("(declare-datatypes ((" ++ ("|" ++ "T" ++ "|") ++ " 0)) ((("
            ++ ("|" ++ "T" ++ "|") ++ " (|m| Int)" ++ "))))") ++ "\n"] ∧
      toSmtLibSort stB (.tuple 10 "T" ["m"] [.int 11 false]) = some ("|" ++ "T" ++ "|", stB) ∧
      toSmtLibSort stB (.tuple 12 "T" ["m"] [.int 13 false]) = some ("|" ++ "T" ++ "|", stB) :=
  tupleDatatypeDeclaredOncePerName "T"


end SmtLib
